import Mathlib

/-!
# imgwater: a watermarking image proxy

A shallow embedding of `imgwater.go`.  Go strings are byte sequences and are
modelled as lists of byte values, so that indexing and slicing mean what they
mean in Go.  Go `int` is the 64-bit two's-complement integer: arithmetic on
image coordinates goes through `wrap`.  The packages the program imports
(`image/jpeg`, `image/png`, `image/gif`, `net/http`, the Unicode tables, the
generated `Asset` function, the resampling kernel) are taken as a parameter,
the structure `Lib`; the parts of the standard library whose behaviour decides
a property (`strconv.Atoi`, `strings.ToLower` on ASCII, the media-type part of
`mime.ParseMediaType`, `image.Rectangle`, `draw.Draw`) are written out.
-/

namespace Imgwater

set_option maxRecDepth 8000

/-- A Go string: a sequence of bytes. -/
abbrev GoString := List Nat

/-- The bytes of an ASCII literal. -/
def str (s : String) : GoString := s.toList.map Char.toNat

/-! ## strconv -/

/-- The two error kinds of package strconv. -/
inductive NumError where
  | ErrSyntax
  | ErrRange
  deriving DecidableEq

/-- The largest uint64. -/
def maxUint64 : Nat := 2 ^ 64 - 1

/-- The digit loop of `strconv.ParseUint(s, 10, 64)`, started with accumulator `n`:
a byte that is not a decimal digit is a syntax error with value 0, an overflow of
the accumulator is a range error with value `maxUint64`. -/
def parseUintLoop : GoString → Nat → Nat × Option NumError
  | [], n => (n, none)
  | c :: cs, n =>
    if 48 ≤ c ∧ c ≤ 57 then
      if n ≥ maxUint64 / 10 + 1 then (maxUint64, some NumError.ErrRange)
      else if n * 10 + (c - 48) > maxUint64 then (maxUint64, some NumError.ErrRange)
      else parseUintLoop cs (n * 10 + (c - 48))
    else (0, some NumError.ErrSyntax)

/-- Go `strconv.ParseUint(s, 10, 64)`. -/
def ParseUint (s : GoString) : Nat × Option NumError :=
  if s = [] then (0, some NumError.ErrSyntax) else parseUintLoop s 0

/-- Go `strconv.ParseInt(s, 10, 0)` on a 64-bit platform. -/
def ParseInt (s : GoString) : Int × Option NumError :=
  if s = [] then (0, some NumError.ErrSyntax)
  else
    let neg : Bool := s.head? = some 45
    let body : GoString := if s.head? = some 43 ∨ s.head? = some 45 then s.tail else s
    let r := ParseUint body
    if r.2 = some NumError.ErrSyntax then (0, r.2)
    else if neg = false ∧ r.1 ≥ 2 ^ 63 then (2 ^ 63 - 1, some NumError.ErrRange)
    else if neg = true ∧ r.1 > 2 ^ 63 then (-(2 ^ 63), some NumError.ErrRange)
    else if neg then (-(r.1 : Int), none)
    else ((r.1 : Int), none)

/-- Go `strconv.Atoi`. -/
def Atoi (s : GoString) : Int × Option NumError := ParseInt s

/-- The function `MustAtoi` of imgwater.go: the error of `Atoi` is discarded. -/
def MustAtoi (s : GoString) : Int := (Atoi s).1

/-- A byte that is an ASCII decimal digit. -/
def isDigit (c : Nat) : Bool := decide (48 ≤ c ∧ c ≤ 57)

/-- Decimal integer literals: an optional sign followed by one or more digits. -/
def isDecimalInteger (s : GoString) : Bool :=
  match s with
  | [] => false
  | c :: cs =>
    if c = 43 ∨ c = 45 then (decide (cs ≠ []) && cs.all isDigit)
    else (c :: cs).all isDigit

/-! ## Package image: points and rectangles -/

/-- Go `int` arithmetic: the result of an operation reduced to the 64-bit
two's-complement range. -/
def wrap (x : Int) : Int := (x + 2 ^ 63) % 2 ^ 64 - 2 ^ 63

/-- Values a Go `int` can hold. -/
def isInt (x : Int) : Prop := -(2 ^ 63) ≤ x ∧ x < 2 ^ 63

instance (x : Int) : Decidable (isInt x) := by unfold isInt; infer_instance

/-- Go `image.Point`. -/
structure Point where
  X : Int
  Y : Int
  deriving DecidableEq

/-- Go `image.Rectangle`. -/
structure Rectangle where
  Min : Point
  Max : Point
  deriving DecidableEq

/-- Go `image.ZP`, the zero point. -/
def ZP : Point := ⟨0, 0⟩

/-- Go `image.ZR`, the zero rectangle. -/
def ZR : Rectangle := ⟨ZP, ZP⟩

/-- Go `Point.Add`. -/
def Point.Add (p q : Point) : Point := ⟨wrap (p.X + q.X), wrap (p.Y + q.Y)⟩

/-- Go `Point.Sub`. -/
def Point.Sub (p q : Point) : Point := ⟨wrap (p.X - q.X), wrap (p.Y - q.Y)⟩

/-- Go `Point.In`. -/
def Point.In (p : Point) (r : Rectangle) : Bool :=
  decide (r.Min.X ≤ p.X ∧ p.X < r.Max.X ∧ r.Min.Y ≤ p.Y ∧ p.Y < r.Max.Y)

/-- Go `image.Rect`: the coordinates are put in order. -/
def Rect (x0 y0 x1 y1 : Int) : Rectangle :=
  ⟨⟨if x0 > x1 then x1 else x0, if y0 > y1 then y1 else y0⟩,
   ⟨if x0 > x1 then x0 else x1, if y0 > y1 then y0 else y1⟩⟩

/-- Go `Rectangle.Dx`. -/
def Rectangle.Dx (r : Rectangle) : Int := wrap (r.Max.X - r.Min.X)

/-- Go `Rectangle.Dy`. -/
def Rectangle.Dy (r : Rectangle) : Int := wrap (r.Max.Y - r.Min.Y)

/-- Go `Rectangle.Add`: translation by a point. -/
def Rectangle.Add (r : Rectangle) (p : Point) : Rectangle :=
  ⟨⟨wrap (r.Min.X + p.X), wrap (r.Min.Y + p.Y)⟩, ⟨wrap (r.Max.X + p.X), wrap (r.Max.Y + p.Y)⟩⟩

/-- Go `Rectangle.Empty`. -/
def Rectangle.Empty (r : Rectangle) : Bool :=
  decide (r.Min.X ≥ r.Max.X ∨ r.Min.Y ≥ r.Max.Y)

/-- Go `Rectangle.Intersect`. -/
def Rectangle.Intersect (r s : Rectangle) : Rectangle :=
  let t : Rectangle :=
    ⟨⟨if r.Min.X < s.Min.X then s.Min.X else r.Min.X,
      if r.Min.Y < s.Min.Y then s.Min.Y else r.Min.Y⟩,
     ⟨if r.Max.X > s.Max.X then s.Max.X else r.Max.X,
      if r.Max.Y > s.Max.Y then s.Max.Y else r.Max.Y⟩⟩
  if t.Empty then ZR else t

/-! ## Colours and images -/

/-- What `Color.RGBA()` returns: 16-bit alpha-premultiplied components. -/
structure Color where
  R : Nat
  G : Nat
  B : Nat
  A : Nat
  deriving DecidableEq

/-- Go `color.RGBA`: 8-bit alpha-premultiplied components. -/
structure RGBA8 where
  R : Nat
  G : Nat
  B : Nat
  A : Nat
  deriving DecidableEq

/-- Go `color.RGBA.RGBA()`: each component `c` becomes `c | c << 8`. -/
def RGBA8.RGBA (c : RGBA8) : Color := ⟨c.R * 257, c.G * 257, c.B * 257, c.A * 257⟩

/-- Go `image.Image`, read through `Bounds()` and `At(x, y).RGBA()`. -/
structure Image where
  Bounds : Rectangle
  At : Int → Int → Color

/-- Go `*image.RGBA`: the pixel buffer is indexed by the point. -/
structure RGBA where
  Rect : Rectangle
  Pix : Int → Int → RGBA8

/-- Go `(*image.RGBA).RGBAAt`: the zero colour outside the rectangle. -/
def RGBA.RGBAAt (m : RGBA) (x y : Int) : RGBA8 :=
  if (Point.mk x y).In m.Rect then m.Pix x y else ⟨0, 0, 0, 0⟩

/-- An `*image.RGBA` used as an `image.Image`. -/
def RGBA.toImage (m : RGBA) : Image := ⟨m.Rect, fun x y => (m.RGBAAt x y).RGBA⟩

/-- Go `image.NewRGBA`: a buffer of zero (transparent) pixels. -/
def NewRGBA (r : Rectangle) : RGBA := ⟨r, fun _ _ => ⟨0, 0, 0, 0⟩⟩

/-! ## Package draw -/

/-- The function `clip` of image/draw, without a mask: the rectangle is cut to the
destination bounds and to the source bounds moved to where `sp` meets `r.Min`, and
`sp` follows the rectangle's corner. -/
def clip (dst : Rectangle) (r : Rectangle) (src : Rectangle) (sp : Point) : Rectangle × Point :=
  let orig := r.Min
  let r1 := r.Intersect dst
  let r2 := r1.Intersect (src.Add (orig.Sub sp))
  let dx := wrap (r2.Min.X - orig.X)
  let dy := wrap (r2.Min.Y - orig.Y)
  if dx = 0 ∧ dy = 0 then (r2, sp)
  else (r2, ⟨wrap (sp.X + dx), wrap (sp.Y + dy)⟩)

/-- One component of the `Over` operator into an RGBA destination, as in `drawRGBA`:
`d` is the 8-bit destination component, `s` and `sa` the 16-bit source component and
source alpha; the arithmetic is uint32 and the result is truncated to uint8.  The
special-cased loops of image/draw (such as `drawCopyOver` for an RGBA source) give
the same value for alpha-premultiplied colours and may differ by one for others. -/
def overComponent (d s sa : Nat) : Nat :=
  let m := 65535
  let a := ((m + 2 ^ 32 - sa % 2 ^ 32) % 2 ^ 32 * 257) % 2 ^ 32
  (((d * a + s * m) % 2 ^ 32) / m / 256) % 256

/-- The `Over` operator on one pixel of an RGBA destination. -/
def over (s : Color) (d : RGBA8) : RGBA8 :=
  ⟨overComponent d.R s.R s.A, overComponent d.G s.G s.A,
   overComponent d.B s.B s.A, overComponent d.A s.A s.A⟩

/-- Go `draw.Draw(dst, r, src, sp, draw.Over)` for an RGBA destination: after
clipping, every point `p` of the rectangle receives the source pixel at
`sp + (p - r.Min)` composed over the pixel already there. -/
def Draw (dst : RGBA) (r : Rectangle) (src : Image) (sp : Point) : RGBA :=
  let c := clip dst.Rect r src.Bounds sp
  if c.1.Empty then dst
  else
    { dst with
      Pix := fun x y =>
        if (Point.mk x y).In c.1 then
          over (src.At (wrap (wrap (c.2.X + x) - c.1.Min.X)) (wrap (wrap (c.2.Y + y) - c.1.Min.Y)))
            (dst.Pix x y)
        else dst.Pix x y }

/-! ## Streams, upstream responses and the imported packages -/

/-- An `io.Reader` over a byte sequence: `pos` counts the bytes read so far. -/
structure Reader where
  data : GoString
  pos : Nat
  deriving DecidableEq

/-- An `io.Writer`: the bytes written so far. -/
structure Writer where
  written : GoString
  deriving DecidableEq

/-- What the handler reads of an `*http.Response`: the status code, the value of
`Header.Get("Content-Type")` (empty when the header is absent) and the body. -/
structure Response where
  StatusCode : Int
  ContentType : GoString
  Body : Reader
  deriving DecidableEq

/-- The imported packages, as far as the program uses them.  A decoder takes the
stream and returns the stream as it leaves it and an image or an error; an encoder
takes the sink and the canvas and returns the sink as it leaves it and its error. -/
structure Lib where
  /-- Go `strings.Map(unicode.ToLower, s)`, used for strings with a non-ASCII byte. -/
  mapToLower : GoString → GoString
  /-- Go `strings.TrimFunc(s, unicode.IsSpace)`, used for strings with a non-ASCII byte. -/
  trimUnicodeSpace : GoString → GoString
  /-- The parameter loop of `mime.ParseMediaType`, given the media type and the
  text from the first semicolon on. -/
  mediaParams : GoString → GoString → GoString × Option String
  jpegDecode : Reader → Reader × Except String Image
  pngDecode : Reader → Reader × Except String Image
  gifDecode : Reader → Reader × Except String Image
  jpegEncode : Writer → RGBA → Writer × Option String
  pngEncode : Writer → RGBA → Writer × Option String
  gifEncode : Writer → RGBA → Writer × Option String
  /-- The generated function `Asset` of the go-bindata file. -/
  Asset : GoString → Except String GoString
  /-- The pixels `draw.CatmullRom.Scale(dst, dr, src, sr, nil)` leaves in `dst`. -/
  Scale : RGBA → Rectangle → Image → Rectangle → Int → Int → RGBA8
  /-- Go `http.Get`. -/
  Get : GoString → Except String Response

/-! ## Package strings -/

/-- Go `strings.ToLower`: ASCII strings are lowered byte by byte, other strings go
through the Unicode mapping. -/
def ToLower (lib : Lib) (s : GoString) : GoString :=
  if s.all (fun c => decide (c < 128)) then
    s.map (fun c => if 65 ≤ c ∧ c ≤ 90 then c + 32 else c)
  else lib.mapToLower s

/-- The table `asciiSpace` of package strings: tab, newline, vertical tab, form feed,
carriage return and space. -/
def asciiSpace (c : Nat) : Bool := decide (c = 9 ∨ c = 10 ∨ c = 11 ∨ c = 12 ∨ c = 13 ∨ c = 32)

/-- Go `strings.TrimSpace`. -/
def TrimSpace (lib : Lib) (s : GoString) : GoString :=
  if s.all (fun c => decide (c < 128)) then
    ((s.dropWhile asciiSpace).reverse.dropWhile asciiSpace).reverse
  else lib.trimUnicodeSpace s

/-! ## Package mime -/

/-- The function `isTSpecial` of package mime: one of `()<>@,;:\"/[]?=`. -/
def isTSpecial (c : Nat) : Bool :=
  decide (c ∈ [40, 41, 60, 62, 64, 44, 59, 58, 92, 34, 47, 91, 93, 63, 61])

/-- The function `isTokenChar` of package mime. -/
def isTokenChar (c : Nat) : Bool := decide (c > 32 ∧ c < 127) && !isTSpecial c

/-- The function `consumeToken` of package mime: the longest run of token
characters at the front, and the rest. -/
def consumeToken (v : GoString) : GoString × GoString :=
  (v.takeWhile isTokenChar, v.dropWhile isTokenChar)

/-- The function `checkMediaTypeDisposition` of package mime. -/
def checkMediaTypeDisposition (s : GoString) : Option String :=
  let t := consumeToken s
  if t.1 = [] then some "mime: no media type"
  else if t.2 = [] then none
  else if t.2.head? ≠ some 47 then some "mime: expected slash after first token"
  else
    let u := consumeToken t.2.tail
    if u.1 = [] then some "mime: expected token after slash"
    else if u.2 ≠ [] then some "mime: unexpected content after media subtype"
    else none

/-- Go `mime.ParseMediaType`, the media type and the error: the text before the
first semicolon is lowered, trimmed and checked; the parameters after it are left
to `Lib.mediaParams`. -/
def ParseMediaType (lib : Lib) (v : GoString) : GoString × Option String :=
  let base := v.takeWhile (fun c => decide (c ≠ 59))
  let mediatype := TrimSpace lib (ToLower lib base)
  match checkMediaTypeDisposition mediatype with
  | some e => ([], some e)
  | none =>
    if v.drop base.length = [] then (mediatype, none)
    else lib.mediaParams mediatype (v.drop base.length)

/-! ## imgwater.go -/

/-- The function `InitWatermark`: a failure to load or decode the embedded asset is
a panic (the error case); otherwise a `size` by `size` RGBA image at the origin
holding the resampled asset.  The panic of `image.NewRGBA` for a size whose pixel
buffer does not fit an int is left out: the result is given for every size. -/
def InitWatermark (lib : Lib) (size : Int) : Except String RGBA :=
  match lib.Asset (str "watermark.png") with
  | .error e => .error e
  | .ok wbin =>
    match (lib.pngDecode ⟨wbin, 0⟩).2 with
    | .error e => .error e
    | .ok wmfull =>
      let b := Rect 0 0 size size
      let watermark := NewRGBA b
      .ok { watermark with Pix := lib.Scale watermark b wmfull wmfull.Bounds }

/-- The errors `doWatermark` returns. -/
inductive TransformError where
  /-- The error made by `fmt.Errorf("unsupported image format %s", imgtype)`. -/
  | unsupported (imgtype : GoString)
  /-- The error returned by a decoder. -/
  | decode (e : String)
  deriving DecidableEq

/-- Line 74 of `doWatermark`: `offset := b.Max.Sub(WATERMARK.Bounds().Max)`. -/
def watermarkOffset (b : Rectangle) (WATERMARK : RGBA) : Point := b.Max.Sub WATERMARK.Rect.Max

/-- The rectangle of the second draw, line 77: `WATERMARK.Bounds().Add(offset)`. -/
def watermarkRect (b : Rectangle) (WATERMARK : RGBA) : Rectangle :=
  WATERMARK.Rect.Add (watermarkOffset b WATERMARK)

/-- Lines 75 and 76 of `doWatermark`: the canvas after the source draw,
`m := image.NewRGBA(b); draw.Draw(m, b, img, image.ZP, draw.Over)`. -/
def sourceCanvas (img : Image) : RGBA := Draw (NewRGBA img.Bounds) img.Bounds img ZP

/-- Lines 73 to 77 of `doWatermark`: the canvas handed to the encoder. -/
def composite (WATERMARK : RGBA) (img : Image) : RGBA :=
  Draw (sourceCanvas img) (watermarkRect img.Bounds WATERMARK) WATERMARK.toImage ZP

/-- What a call of `doWatermark` leaves: the returned error, the input stream and
the output sink. -/
structure Transformed where
  err : Option TransformError
  imgbody : Reader
  output : Writer

/-- The four recognised format names. -/
def formats : List GoString := [str "jpeg", str "jpg", str "png", str "gif"]

/-- The first switch of `doWatermark`, lines 58 to 67: the decoder call for the
lowered format, or nothing for the default case. -/
def decode (lib : Lib) (imgtype : GoString) (imgbody : Reader) :
    Option (Reader × Except String Image) :=
  if imgtype = str "jpeg" ∨ imgtype = str "jpg" then some (lib.jpegDecode imgbody)
  else if imgtype = str "png" then some (lib.pngDecode imgbody)
  else if imgtype = str "gif" then some (lib.gifDecode imgbody)
  else none

/-- The second switch of `doWatermark`, lines 79 to 86: the encoder call for the
lowered format, with the sink it leaves and the error it returns. -/
def encode (lib : Lib) (imgtype : GoString) (output : Writer) (m : RGBA) :
    Writer × Option String :=
  if imgtype = str "jpeg" ∨ imgtype = str "jpg" then lib.jpegEncode output m
  else if imgtype = str "png" then lib.pngEncode output m
  else if imgtype = str "gif" then lib.gifEncode output m
  else (output, none)

/-- The function `doWatermark`.  The value returned after the second switch is
`nil`: what the encoder returned is not looked at. -/
def doWatermark (lib : Lib) (WATERMARK : RGBA) (imgtype : GoString) (imgbody : Reader)
    (output : Writer) : Transformed :=
  let imgtype := ToLower lib imgtype
  match decode lib imgtype imgbody with
  | none => ⟨some (TransformError.unsupported imgtype), imgbody, output⟩
  | some (body, .error e) => ⟨some (TransformError.decode e), body, output⟩
  | some (body, .ok img) =>
    ⟨none, body, (encode lib imgtype output (composite WATERMARK img)).1⟩

/-- How a call of the handler ends. -/
inductive Reply where
  /-- The handler called `http.Error(w, msg, code)` and returned. -/
  | Error (msg : String) (code : Nat)
  /-- The handler returned without calling `http.Error`. -/
  | done
  /-- The handler stopped in a run-time panic. -/
  | panicked (msg : String)
  deriving DecidableEq

/-- What a call of `proxyImage` did: the URL it gave to `http.Get` (if it got that
far), the call of `doWatermark` it made (if any), and how it ended. -/
structure Handled where
  fetched : Option GoString
  transform : Option Transformed
  reply : Reply

/-- Lines 92 to 96 of `proxyImage`: the URL to fetch.  Indexing the last byte of an
empty base URL and slicing a path shorter than 11 bytes are run-time panics. -/
def resolve (IMAGE_URL : GoString) (path : GoString) : Except String GoString :=
  match IMAGE_URL.getLast? with
  | none => .error "index out of range"
  | some c =>
    let full_url := if c ≠ 47 then IMAGE_URL ++ str "/" else IMAGE_URL
    if path.length < 11 then .error "slice bounds out of range"
    else .ok (full_url ++ path.drop 11)

/-- Lines 105 to 113 of `proxyImage`: the answer the status check gives, if it
rejects the response. -/
def checkStatus (StatusCode : Int) : Option Reply :=
  if StatusCode ≥ 400 ∧ StatusCode < 500 then some (Reply.Error "error requesting resource" 400)
  else if StatusCode ≥ 500 then some (Reply.Error "internal error" 500)
  else none

/-- Lines 115 to 134 of `proxyImage`: content-type validation and the transform. -/
def serve (lib : Lib) (WATERMARK : RGBA) (rimg : Response) (w : Writer) :
    Option Transformed × Reply :=
  let ct := rimg.ContentType
  if ct = [] then (none, Reply.Error "requested resource is not a media file" 400)
  else
    let parsed := ParseMediaType lib ct
    if parsed.2 ≠ none then (none, Reply.Error "invalid content type" 400)
    else if parsed.1.length < 6 then (none, Reply.panicked "slice bounds out of range")
    else if parsed.1.take 6 ≠ str "image/" then (none, Reply.Error "invalid content type" 400)
    else
      let t := doWatermark lib WATERMARK (parsed.1.drop 6) rimg.Body w
      if t.err ≠ none then (some t, Reply.Error "error applying watermark" 500)
      else (some t, Reply.done)

/-- The handler `proxyImage`, for the configured base URL, the request path and the
response writer. -/
def proxyImage (lib : Lib) (WATERMARK : RGBA) (IMAGE_URL : GoString) (path : GoString)
    (w : Writer) : Handled :=
  match resolve IMAGE_URL path with
  | .error e => ⟨none, none, Reply.panicked e⟩
  | .ok full_url =>
    match lib.Get full_url with
    | .error _ => ⟨some full_url, none, Reply.Error "internal error" 500⟩
    | .ok rimg =>
      match checkStatus rimg.StatusCode with
      | some r => ⟨some full_url, none, r⟩
      | none =>
        let s := serve lib WATERMARK rimg w
        ⟨some full_url, s.1, s.2⟩

/-! ## A concrete instance of the imported packages -/

/-- A sample world to run the program in: what the upstream answers, what the
decoders make of a body, what an encoder writes and whether it fails.  Lowering and
trimming of non-ASCII text and media-type parameters are not part of a scenario:
the sample requests are ASCII and carry no parameters. -/
structure Scenario where
  upstream : Except String Response
  image : Except String Image
  encoded : GoString
  encodeErr : Option String

/-- The packages of a scenario: a decoder reads the whole stream, an encoder that
fails writes nothing, the resampling leaves the pixels as they are; a header with
parameters counts as carrying an invalid one. -/
def Scenario.lib (sc : Scenario) : Lib where
  mapToLower := fun s => s
  trimUnicodeSpace := fun s => s
  mediaParams := fun _ _ => ([], some "mime: invalid media parameter")
  jpegDecode := fun r => (⟨r.data, r.data.length⟩, sc.image)
  pngDecode := fun r => (⟨r.data, r.data.length⟩, sc.image)
  gifDecode := fun r => (⟨r.data, r.data.length⟩, sc.image)
  jpegEncode := fun w _ => if sc.encodeErr = none then (⟨w.written ++ sc.encoded⟩, none) else (w, sc.encodeErr)
  pngEncode := fun w _ => if sc.encodeErr = none then (⟨w.written ++ sc.encoded⟩, none) else (w, sc.encodeErr)
  gifEncode := fun w _ => if sc.encodeErr = none then (⟨w.written ++ sc.encoded⟩, none) else (w, sc.encodeErr)
  Asset := fun _ => .ok []
  Scale := fun dst _ _ _ => dst.Pix
  Get := fun _ => sc.upstream

/-- An opaque red pixel. -/
def red : Color := ⟨65535, 0, 0, 65535⟩

/-- A 3 by 2 opaque red image at the origin. -/
def sampleImage : Image :=
  ⟨⟨⟨0, 0⟩, ⟨3, 2⟩⟩, fun x y => if 0 ≤ x ∧ x < 3 ∧ 0 ≤ y ∧ y < 2 then red else ⟨0, 0, 0, 0⟩⟩

/-- A one-pixel opaque red image whose bounds are (1,0)-(2,1), as `gif.Decode`
returns for a frame placed at x = 1 on a 2 by 1 screen. -/
def offsetImage : Image :=
  ⟨⟨⟨1, 0⟩, ⟨2, 1⟩⟩, fun x y => if x = 1 ∧ y = 0 then red else ⟨0, 0, 0, 0⟩⟩

/-- A 2 by 2 transparent watermark at the origin. -/
def sampleWatermark : RGBA := NewRGBA (Rect 0 0 2 2)

/-- An upstream body of four bytes, nothing read yet. -/
def sampleBody : Reader := ⟨[1, 2, 3, 4], 0⟩

/-- The scenario of an upstream answering with the given status and Content-Type,
whose body decodes to `sampleImage` and whose encoder works. -/
def answering (status : Int) (contentType : String) : Scenario :=
  ⟨.ok ⟨status, str contentType, sampleBody⟩, .ok sampleImage, [7], none⟩

/-- The scenario of an upstream answering 200 with a PNG that decodes to
`sampleImage`, where the encoder fails because the sink refuses the write. -/
def brokenPipe : Scenario :=
  ⟨.ok ⟨200, str "image/png", sampleBody⟩, .ok sampleImage, [7], some "write: broken pipe"⟩

/-- The watermark `InitWatermark` builds in the sample scenario for size 5. -/
def watermark5 : RGBA :=
  { NewRGBA (Rect 0 0 5 5) with
    Pix := (answering 200 "image/png").lib.Scale (NewRGBA (Rect 0 0 5 5)) (Rect 0 0 5 5)
      sampleImage sampleImage.Bounds }

/-- The watermark `InitWatermark` builds in the sample scenario for size 0. -/
def watermark0 : RGBA :=
  { NewRGBA (Rect 0 0 0 0) with
    Pix := (answering 200 "image/png").lib.Scale (NewRGBA (Rect 0 0 0 0)) (Rect 0 0 0 0)
      sampleImage sampleImage.Bounds }

/-! ## Startup size -/

theorem parseUintLoop_not_digits (cs : GoString) :
    ∀ n : Nat, cs.all isDigit = false →
      parseUintLoop cs n = (0, some NumError.ErrSyntax) ∨
      parseUintLoop cs n = (maxUint64, some NumError.ErrRange) := by
  induction cs with
  | nil => intro n h; simp at h
  | cons c cs ih =>
    intro n h
    unfold parseUintLoop
    by_cases hc : 48 ≤ c ∧ c ≤ 57
    · have hcs : cs.all isDigit = false := by
        have hd : isDigit c = true := by simp [isDigit, hc]
        simpa [List.all_cons, hd] using h
      simp only [hc, and_self, if_true]
      split
      · exact Or.inr rfl
      · split
        · exact Or.inr rfl
        · exact ih _ hcs
    · simp [hc]

theorem ParseUint_not_digits (cs : GoString) (h : cs = [] ∨ cs.all isDigit = false) :
    ParseUint cs = (0, some NumError.ErrSyntax) ∨
    ParseUint cs = (maxUint64, some NumError.ErrRange) := by
  unfold ParseUint
  by_cases he : cs = []
  · simp [he]
  · simp only [he, if_false]
    rcases h with h | h
    · exact absurd h he
    · exact parseUintLoop_not_digits cs 0 h

theorem ParseInt_of_ParseUint (s : GoString) (hs : s ≠ [])
    (h : ParseUint (if s.head? = some 43 ∨ s.head? = some 45 then s.tail else s)
          = (0, some NumError.ErrSyntax) ∨
         ParseUint (if s.head? = some 43 ∨ s.head? = some 45 then s.tail else s)
          = (maxUint64, some NumError.ErrRange)) :
    ParseInt s = (0, some NumError.ErrSyntax) ∨
    ParseInt s = (2 ^ 63 - 1, some NumError.ErrRange) ∨
    ParseInt s = (-(2 ^ 63), some NumError.ErrRange) := by
  unfold ParseInt
  simp only [hs, if_false]
  rcases h with h | h
  · simp [h]
  · simp only [h]
    by_cases hn : s.head? = some 45
    · right; right
      simp [hn, maxUint64]
    · right; left
      simp [hn, maxUint64]

theorem ParseInt_not_decimal (s : GoString) (h : isDecimalInteger s = false) :
    ParseInt s = (0, some NumError.ErrSyntax) ∨
    ParseInt s = (2 ^ 63 - 1, some NumError.ErrRange) ∨
    ParseInt s = (-(2 ^ 63), some NumError.ErrRange) := by
  cases s with
  | nil => left; rfl
  | cons c cs =>
    apply ParseInt_of_ParseUint (c :: cs) (by simp)
    apply ParseUint_not_digits
    by_cases hc : c = 43 ∨ c = 45
    · have hb : (if (c :: cs).head? = some 43 ∨ (c :: cs).head? = some 45
          then (c :: cs).tail else c :: cs) = cs := by simp [hc]
      rw [hb]
      simp only [isDecimalInteger, hc, if_true, Bool.and_eq_false_iff] at h
      rcases h with h | h
      · left; simpa using h
      · right; exact h
    · have hb : (if (c :: cs).head? = some 43 ∨ (c :: cs).head? = some 45
          then (c :: cs).tail else c :: cs) = c :: cs := by simp [hc]
      rw [hb]
      simp only [isDecimalInteger, hc, if_false] at h
      right; exact h

/-- C6 (counterexample): for the strings "abc" and "", neither a decimal integer,
`MustAtoi` returns the integer 0; nothing stops the startup. -/
theorem C6_MustAtoi_returns_zero :
    isDecimalInteger (str "abc") = false ∧ MustAtoi (str "abc") = 0 ∧
    isDecimalInteger (str "") = false ∧ MustAtoi (str "") = 0 := by decide

/-- C6 (amended): for every string that is not a decimal integer, `Atoi` reports an
error and `MustAtoi` drops it and returns an integer: 0 after a syntax error, the
bound 2^63 - 1 or -2^63 after a range error (digits that overflow before the
invalid byte is reached). -/
theorem C6_MustAtoi_discards_error (s : GoString) (h : isDecimalInteger s = false) :
    ((Atoi s).2 = some NumError.ErrSyntax ∧ MustAtoi s = 0) ∨
    ((Atoi s).2 = some NumError.ErrRange ∧
      (MustAtoi s = 2 ^ 63 - 1 ∨ MustAtoi s = -(2 ^ 63))) := by
  unfold MustAtoi Atoi
  rcases ParseInt_not_decimal s h with e | e | e
  · left; rw [e]; exact ⟨rfl, rfl⟩
  · right; rw [e]; exact ⟨rfl, Or.inl rfl⟩
  · right; rw [e]; exact ⟨rfl, Or.inr rfl⟩

/-- C6 (witness): the amended statement at the string "abc". -/
theorem C6_MustAtoi_discards_error_witness :
    isDecimalInteger (str "abc") = false ∧
    (((Atoi (str "abc")).2 = some NumError.ErrSyntax ∧ MustAtoi (str "abc") = 0) ∨
     ((Atoi (str "abc")).2 = some NumError.ErrRange ∧
      (MustAtoi (str "abc") = 2 ^ 63 - 1 ∨ MustAtoi (str "abc") = -(2 ^ 63)))) :=
  ⟨by decide, C6_MustAtoi_discards_error (str "abc") (by decide)⟩

/-! ## Format dispatch -/

theorem ToLower_ascii (lib : Lib) (s : GoString)
    (h : s.all (fun c => decide (c < 128)) = true) :
    ToLower lib s = s.map (fun c => if 65 ≤ c ∧ c ≤ 90 then c + 32 else c) := by
  unfold ToLower
  rw [if_pos h]

theorem decode_eq_none_iff (lib : Lib) (t : GoString) (body : Reader) :
    decode lib t body = none ↔ t ∉ formats := by
  have e1 : str "png" ≠ str "jpeg" ∧ str "png" ≠ str "jpg" := by decide
  have e2 : str "gif" ≠ str "jpeg" ∧ str "gif" ≠ str "jpg" ∧ str "gif" ≠ str "png" := by decide
  unfold decode formats
  by_cases h1 : t = str "jpeg" ∨ t = str "jpg"
  · rcases h1 with h | h <;> simp [h]
  · by_cases h2 : t = str "png"
    · simp [h2, e1]
    · by_cases h3 : t = str "gif"
      · simp [h3, e2]
      · simp only [h1, h2, h3, if_false, true_iff, List.mem_cons, List.mem_singleton,
          List.not_mem_nil, or_false]
        push_neg at h1
        tauto

theorem doWatermark_unsupported (lib : Lib) (W : RGBA) (f : GoString) (body : Reader)
    (out : Writer) (h : decode lib (ToLower lib f) body = none) :
    doWatermark lib W f body out =
      ⟨some (TransformError.unsupported (ToLower lib f)), body, out⟩ := by
  simp only [doWatermark, h]

theorem doWatermark_decode_error (lib : Lib) (W : RGBA) (f : GoString) (body : Reader)
    (out : Writer) (b : Reader) (e : String)
    (h : decode lib (ToLower lib f) body = some (b, .error e)) :
    doWatermark lib W f body out = ⟨some (TransformError.decode e), b, out⟩ := by
  simp only [doWatermark, h]

theorem doWatermark_decoded (lib : Lib) (W : RGBA) (f : GoString) (body : Reader)
    (out : Writer) (b : Reader) (img : Image)
    (h : decode lib (ToLower lib f) body = some (b, .ok img)) :
    doWatermark lib W f body out =
      ⟨none, b, (encode lib (ToLower lib f) out (composite W img)).1⟩ := by
  simp only [doWatermark, h]

/-- C1: `doWatermark` returns the unsupported-format error exactly when the lowered
format is none of "jpeg", "jpg", "png", "gif"; it does so with the input stream and
the output sink exactly as they were given (nothing read, nothing written); and
"PNG" and "JpEg" lower to recognised names. -/
theorem C1_unsupported_format (lib : Lib) (W : RGBA) (f : GoString) (body : Reader)
    (out : Writer) :
    ((∃ t, (doWatermark lib W f body out).err = some (TransformError.unsupported t)) ↔
      ToLower lib f ∉ formats) ∧
    (((doWatermark lib W f body out).err = some (TransformError.unsupported (ToLower lib f)) ∧
      (doWatermark lib W f body out).imgbody = body ∧
      (doWatermark lib W f body out).output = out) ↔ ToLower lib f ∉ formats) ∧
    ToLower lib (str "PNG") = str "png" ∧ ToLower lib (str "JpEg") = str "jpeg" ∧
    str "png" ∈ formats ∧ str "jpeg" ∈ formats := by
  have key := decode_eq_none_iff lib (ToLower lib f) body
  refine ⟨?_, ?_, ?_, ?_, by decide, by decide⟩
  · rw [← key]
    cases hd : decode lib (ToLower lib f) body with
    | none => rw [doWatermark_unsupported lib W f body out hd]; simp
    | some r =>
      obtain ⟨b, e⟩ := r
      cases e with
      | error e => rw [doWatermark_decode_error lib W f body out b e hd]; simp
      | ok img => rw [doWatermark_decoded lib W f body out b img hd]; simp
  · rw [← key]
    cases hd : decode lib (ToLower lib f) body with
    | none => rw [doWatermark_unsupported lib W f body out hd]; simp
    | some r =>
      obtain ⟨b, e⟩ := r
      cases e with
      | error e => rw [doWatermark_decode_error lib W f body out b e hd]; simp
      | ok img => rw [doWatermark_decoded lib W f body out b img hd]; simp
  · rw [ToLower_ascii lib _ (by decide)]; decide
  · rw [ToLower_ascii lib _ (by decide)]; decide

/-! ## The handler -/

theorem proxyImage_fetched (lib : Lib) (W : RGBA) (base path : GoString) (w : Writer)
    (full : GoString) (rimg : Response)
    (hr : resolve base path = .ok full) (hg : lib.Get full = .ok rimg) :
    proxyImage lib W base path w =
      match checkStatus rimg.StatusCode with
      | some r => ⟨some full, none, r⟩
      | none => ⟨some full, (serve lib W rimg w).1, (serve lib W rimg w).2⟩ := by
  simp only [proxyImage, hr, hg]

/-- C3 (counterexample): an upstream status of 600 is rejected by the status check
with a 500 answer; the request does not reach content-type validation or the
transform, although the same response with status 200 is served. -/
theorem C3_status_600_rejected :
    checkStatus 600 = some (Reply.Error "internal error" 500) ∧
    (proxyImage (answering 600 "image/png").lib sampleWatermark (str "http://up")
      (str "/watermark/a.png") ⟨[]⟩).reply = Reply.Error "internal error" 500 ∧
    (proxyImage (answering 600 "image/png").lib sampleWatermark (str "http://up")
      (str "/watermark/a.png") ⟨[]⟩).transform.isNone = true ∧
    (proxyImage (answering 200 "image/png").lib sampleWatermark (str "http://up")
      (str "/watermark/a.png") ⟨[]⟩).reply = Reply.done := by
  decide

/-- C3 (amended): after a successful fetch with status s, a status 400 to 499 is
answered 400 "error requesting resource" and every status of 500 or more is
answered 500 "internal error", both without a call of the transform; for every
status below 400 the status check rejects nothing and the handler goes on with
content-type validation. -/
theorem C3_status_check (lib : Lib) (W : RGBA) (base path : GoString) (w : Writer)
    (full : GoString) (rimg : Response)
    (hr : resolve base path = .ok full) (hg : lib.Get full = .ok rimg) :
    (400 ≤ rimg.StatusCode ∧ rimg.StatusCode ≤ 499 →
      proxyImage lib W base path w =
        ⟨some full, none, Reply.Error "error requesting resource" 400⟩) ∧
    (500 ≤ rimg.StatusCode →
      proxyImage lib W base path w = ⟨some full, none, Reply.Error "internal error" 500⟩) ∧
    (rimg.StatusCode < 400 →
      checkStatus rimg.StatusCode = none ∧
      proxyImage lib W base path w =
        ⟨some full, (serve lib W rimg w).1, (serve lib W rimg w).2⟩) := by
  rw [proxyImage_fetched lib W base path w full rimg hr hg]
  refine ⟨?_, ?_, ?_⟩
  · intro h
    have hc : checkStatus rimg.StatusCode = some (Reply.Error "error requesting resource" 400) := by
      unfold checkStatus
      rw [if_pos ⟨h.1, by omega⟩]
    rw [hc]
  · intro h
    have hc : checkStatus rimg.StatusCode = some (Reply.Error "internal error" 500) := by
      unfold checkStatus
      rw [if_neg (by omega), if_pos h]
    rw [hc]
  · intro h
    have hc : checkStatus rimg.StatusCode = none := by
      unfold checkStatus
      rw [if_neg (by omega), if_neg (by omega)]
    rw [hc]
    exact ⟨rfl, rfl⟩

/-- C3 (witness): the amended statement for the upstream that answers 404. -/
theorem C3_status_check_witness :
    proxyImage (answering 404 "image/png").lib sampleWatermark (str "http://up")
      (str "/watermark/a.png") ⟨[]⟩ =
        ⟨some (str "http://up/a.png"), none, Reply.Error "error requesting resource" 400⟩ :=
  (C3_status_check (answering 404 "image/png").lib sampleWatermark (str "http://up")
    (str "/watermark/a.png") ⟨[]⟩ (str "http://up/a.png") ⟨404, str "image/png", sampleBody⟩
    rfl rfl).1 (by decide)

/-- C2 (failing input): for an upstream answering 200 with Content-Type "a/b", the
header parses to the media type "a/b" without error, and the handler stops in a
slice-bounds panic at `mimetype[:6]` instead of answering 400 "invalid content
type". -/
theorem C2_short_media_type_panics :
    checkStatus 200 = none ∧
    ParseMediaType (answering 200 "a/b").lib (str "a/b") = (str "a/b", none) ∧
    (proxyImage (answering 200 "a/b").lib sampleWatermark (str "http://up")
      (str "/watermark/a.png") ⟨[]⟩).reply = Reply.panicked "slice bounds out of range" ∧
    (proxyImage (answering 200 "a/b").lib sampleWatermark (str "http://up")
      (str "/watermark/a.png") ⟨[]⟩).reply ≠ Reply.Error "invalid content type" 400 := by
  decide

/-- The part of the content-type rule the handler keeps: an unparsable header, and a
media type of six bytes or more that does not start with "image/", are answered 400
"invalid content type" without a call of the transform. -/
theorem serve_invalid_content_type (lib : Lib) (W : RGBA) (rimg : Response) (w : Writer)
    (hct : rimg.ContentType ≠ [])
    (h : (ParseMediaType lib rimg.ContentType).2 ≠ none ∨
         (6 ≤ (ParseMediaType lib rimg.ContentType).1.length ∧
          (ParseMediaType lib rimg.ContentType).1.take 6 ≠ str "image/")) :
    serve lib W rimg w = (none, Reply.Error "invalid content type" 400) := by
  unfold serve
  simp only [hct, if_false]
  by_cases he : (ParseMediaType lib rimg.ContentType).2 ≠ none
  · rw [if_pos he]
  · rw [if_neg he]
    rcases h with h | h
    · exact absurd h he
    · rw [if_neg (by omega), if_pos h.2]

theorem tokenChar_facts (c : Nat) (h : isTokenChar c = true) :
    c < 128 ∧ c ≠ 59 ∧ asciiSpace c = false ∧
    isTokenChar (if 65 ≤ c ∧ c ≤ 90 then c + 32 else c) = true ∧
    (if 65 ≤ c ∧ c ≤ 90 then c + 32 else c) < 128 ∧
    asciiSpace (if 65 ≤ c ∧ c ≤ 90 then c + 32 else c) = false := by
  simp only [isTokenChar, isTSpecial, asciiSpace, Bool.and_eq_true, decide_eq_true_eq,
    Bool.not_eq_true', decide_eq_false_iff_not, List.mem_cons, List.mem_singleton,
    List.not_mem_nil, or_false, not_or] at h ⊢
  split <;> omega

theorem dropWhile_of_none {p : Nat → Bool} (l : GoString) (h : ∀ x ∈ l, p x = false) :
    l.dropWhile p = l := by
  cases l with
  | nil => rfl
  | cons a t =>
    have ha : p a = false := h a (List.mem_cons_self a t)
    simp [List.dropWhile, ha]

theorem imageSlash_bytes : str "image/" = [105, 109, 97, 103, 101, 47] := by decide

theorem ParseMediaType_image_token (lib : Lib) (sub : GoString) (hne : sub ≠ [])
    (htok : sub.all isTokenChar = true) :
    ParseMediaType lib (str "image/" ++ sub) =
      (str "image/" ++ sub.map (fun c => if 65 ≤ c ∧ c ≤ 90 then c + 32 else c), none) := by
  have ht : ∀ x ∈ sub, isTokenChar x = true := by
    intro x hx
    exact (List.all_eq_true.1 htok) x hx
  have hbase : (str "image/" ++ sub).takeWhile (fun c => decide (c ≠ 59)) = str "image/" ++ sub := by
    rw [List.takeWhile_eq_self_iff]
    intro x hx
    rcases List.mem_append.1 hx with h | h
    · rw [imageSlash_bytes] at h
      simp only [List.mem_cons, List.mem_singleton, List.not_mem_nil, or_false] at h
      simp only [decide_eq_true_eq]
      omega
    · simp only [decide_eq_true_eq]
      exact (tokenChar_facts x (ht x h)).2.1
  have hascii : (str "image/" ++ sub).all (fun c => decide (c < 128)) = true := by
    rw [List.all_eq_true]
    intro x hx
    rcases List.mem_append.1 hx with h | h
    · rw [imageSlash_bytes] at h
      simp only [List.mem_cons, List.mem_singleton, List.not_mem_nil, or_false] at h
      simp only [decide_eq_true_eq]
      omega
    · simp only [decide_eq_true_eq]
      exact (tokenChar_facts x (ht x h)).1
  have hlower : ToLower lib (str "image/" ++ sub) =
      str "image/" ++ sub.map (fun c => if 65 ≤ c ∧ c ≤ 90 then c + 32 else c) := by
    rw [ToLower_ascii lib _ hascii, List.map_append]
    congr 1
  have hL : ∀ x ∈ str "image/" ++ sub.map (fun c => if 65 ≤ c ∧ c ≤ 90 then c + 32 else c),
      x < 128 ∧ asciiSpace x = false := by
    intro x hx
    rcases List.mem_append.1 hx with h | h
    · rw [imageSlash_bytes] at h
      simp only [List.mem_cons, List.mem_singleton, List.not_mem_nil, or_false] at h
      simp only [asciiSpace, decide_eq_false_iff_not]
      omega
    · obtain ⟨c, hc, rfl⟩ := List.mem_map.1 h
      exact ⟨(tokenChar_facts c (ht c hc)).2.2.2.2.1, (tokenChar_facts c (ht c hc)).2.2.2.2.2⟩
  have htrim : TrimSpace lib (str "image/" ++ sub.map (fun c => if 65 ≤ c ∧ c ≤ 90 then c + 32 else c))
      = str "image/" ++ sub.map (fun c => if 65 ≤ c ∧ c ≤ 90 then c + 32 else c) := by
    unfold TrimSpace
    have ha : (str "image/" ++ sub.map (fun c => if 65 ≤ c ∧ c ≤ 90 then c + 32 else c)).all
        (fun c => decide (c < 128)) = true := by
      rw [List.all_eq_true]
      intro x hx
      simp only [decide_eq_true_eq]
      exact (hL x hx).1
    rw [if_pos ha, dropWhile_of_none _ (fun x hx => (hL x hx).2),
      dropWhile_of_none _ (fun x hx => (hL x (List.mem_reverse.1 hx)).2), List.reverse_reverse]
  have hLtok : ∀ x ∈ sub.map (fun c => if 65 ≤ c ∧ c ≤ 90 then c + 32 else c),
      isTokenChar x = true := by
    intro x hx
    obtain ⟨c, hc, rfl⟩ := List.mem_map.1 hx
    exact (tokenChar_facts c (ht c hc)).2.2.2.1
  have hLne : sub.map (fun c => if 65 ≤ c ∧ c ≤ 90 then c + 32 else c) ≠ [] := by
    simpa using hne
  have hcheck : checkMediaTypeDisposition
      (str "image/" ++ sub.map (fun c => if 65 ≤ c ∧ c ≤ 90 then c + 32 else c)) = none := by
    have e1 : isTokenChar 105 = true ∧ isTokenChar 109 = true ∧ isTokenChar 97 = true ∧
        isTokenChar 103 = true ∧ isTokenChar 101 = true ∧ isTokenChar 47 = false := by decide
    have h1 : consumeToken (str "image/" ++ sub.map (fun c => if 65 ≤ c ∧ c ≤ 90 then c + 32 else c))
        = ([105, 109, 97, 103, 101],
           47 :: sub.map (fun c => if 65 ≤ c ∧ c ≤ 90 then c + 32 else c)) := by
      rw [imageSlash_bytes]
      simp [consumeToken, List.takeWhile, List.dropWhile, e1]
    have h2 : consumeToken (sub.map (fun c => if 65 ≤ c ∧ c ≤ 90 then c + 32 else c))
        = (sub.map (fun c => if 65 ≤ c ∧ c ≤ 90 then c + 32 else c), []) := by
      unfold consumeToken
      rw [List.takeWhile_eq_self_iff.2 hLtok, List.dropWhile_eq_nil_iff.2 hLtok]
    unfold checkMediaTypeDisposition
    simp only [h1, List.tail_cons, h2]
    simp [hLne]
  unfold ParseMediaType
  simp only [hbase, hlower, htrim, hcheck, List.drop_length, if_true]

theorem ToLower_token (lib : Lib) (sub : GoString) (htok : sub.all isTokenChar = true) :
    ToLower lib sub = sub.map (fun c => if 65 ≤ c ∧ c ≤ 90 then c + 32 else c) ∧
    ToLower lib (sub.map (fun c => if 65 ≤ c ∧ c ≤ 90 then c + 32 else c)) = ToLower lib sub := by
  have ht : ∀ x ∈ sub, isTokenChar x = true := fun x hx => (List.all_eq_true.1 htok) x hx
  have h1 : sub.all (fun c => decide (c < 128)) = true := by
    rw [List.all_eq_true]
    intro x hx
    simp only [decide_eq_true_eq]
    exact (tokenChar_facts x (ht x hx)).1
  have h2 : (sub.map (fun c => if 65 ≤ c ∧ c ≤ 90 then c + 32 else c)).all
      (fun c => decide (c < 128)) = true := by
    rw [List.all_eq_true]
    intro x hx
    obtain ⟨c, hc, rfl⟩ := List.mem_map.1 hx
    simp only [decide_eq_true_eq]
    exact (tokenChar_facts c (ht c hc)).2.2.2.2.1
  refine ⟨ToLower_ascii lib sub h1, ?_⟩
  rw [ToLower_ascii lib _ h2, ToLower_ascii lib sub h1, List.map_map]
  apply List.map_congr_left
  intro c _
  simp only [Function.comp]
  by_cases hc : 65 ≤ c ∧ c ≤ 90
  · have h3 : ¬ (65 ≤ c + 32 ∧ c + 32 ≤ 90) := by omega
    simp only [hc, and_self, if_true, h3, if_false]
  · simp only [hc, if_false]

theorem serve_image (lib : Lib) (W : RGBA) (rimg : Response) (w : Writer) (sub : GoString)
    (hct : rimg.ContentType ≠ [])
    (hp : ParseMediaType lib rimg.ContentType = (str "image/" ++ sub, none)) :
    serve lib W rimg w =
      if (doWatermark lib W sub rimg.Body w).err ≠ none then
        (some (doWatermark lib W sub rimg.Body w), Reply.Error "error applying watermark" 500)
      else (some (doWatermark lib W sub rimg.Body w), Reply.done) := by
  have hlen : ¬ (str "image/" ++ sub).length < 6 := by
    have : (str "image/").length = 6 := by decide
    rw [List.length_append, this]; omega
  have htake : (str "image/" ++ sub).take 6 = str "image/" := by
    have : (str "image/").length = 6 := by decide
    rw [List.take_append_of_le_length (by omega), List.take_of_length_le (by omega)]
  have hdrop : (str "image/" ++ sub).drop 6 = sub := by
    have : (str "image/").length = 6 := by decide
    rw [← this, List.drop_left]
  unfold serve
  simp only [hct, if_false, hp, ne_eq, not_true_eq_false, hlen, htake, hdrop]

/-- C4 (counterexample): for an upstream answering 200 with Content-Type
"image/bmp" the handler answers 500 "error applying watermark", not 400. -/
theorem C4_bmp_answered_500 :
    (proxyImage (answering 200 "image/bmp").lib sampleWatermark (str "http://up")
      (str "/watermark/a.bmp") ⟨[]⟩).reply = Reply.Error "error applying watermark" 500 ∧
    (∀ msg, (proxyImage (answering 200 "image/bmp").lib sampleWatermark (str "http://up")
      (str "/watermark/a.bmp") ⟨[]⟩).reply ≠ Reply.Error msg 400) := by
  refine ⟨by decide, ?_⟩
  intro msg h
  have h5 : (proxyImage (answering 200 "image/bmp").lib sampleWatermark (str "http://up")
      (str "/watermark/a.bmp") ⟨[]⟩).reply = Reply.Error "error applying watermark" 500 := by
    decide
  rw [h5] at h
  injection h with _ hcode
  exact absurd hcode (by decide)

/-- C4 (amended): for a response that passes the status check.  (1) When its
non-empty Content-Type parses without error to "image/" followed by a subtype whose
lowered form is none of jpeg, jpg, png, gif, the handler answers 500 "error applying
watermark": the transform was called, returned the unsupported-format error and left
the body and the response writer untouched.  (2) For such a header, whatever the
subtype, every error `doWatermark` returns (unsupported format or decoder error) is
answered 500 "error applying watermark".  (3) Every header that is "image/" followed
by a non-empty run of token bytes does parse that way, so for it an unrecognised
subtype is answered 500.  (4) A non-empty header that does not parse is answered 400
"invalid content type" without a call of the transform. -/
theorem C4_unsupported_answered_500 (lib : Lib) (W : RGBA) (base path : GoString) (w : Writer)
    (full : GoString) (rimg : Response)
    (hr : resolve base path = .ok full) (hg : lib.Get full = .ok rimg)
    (hs : checkStatus rimg.StatusCode = none) :
    (∀ sub : GoString, rimg.ContentType ≠ [] →
      ParseMediaType lib rimg.ContentType = (str "image/" ++ sub, none) →
      ToLower lib sub ∉ formats →
      proxyImage lib W base path w =
        ⟨some full, some ⟨some (TransformError.unsupported (ToLower lib sub)), rimg.Body, w⟩,
         Reply.Error "error applying watermark" 500⟩) ∧
    (∀ sub : GoString, rimg.ContentType ≠ [] →
      ParseMediaType lib rimg.ContentType = (str "image/" ++ sub, none) →
      (doWatermark lib W sub rimg.Body w).err ≠ none →
      proxyImage lib W base path w =
        ⟨some full, some (doWatermark lib W sub rimg.Body w),
         Reply.Error "error applying watermark" 500⟩) ∧
    (∀ sub : GoString, rimg.ContentType = str "image/" ++ sub → sub ≠ [] →
      sub.all isTokenChar = true → ToLower lib sub ∉ formats →
      proxyImage lib W base path w =
        ⟨some full, some ⟨some (TransformError.unsupported (ToLower lib sub)), rimg.Body, w⟩,
         Reply.Error "error applying watermark" 500⟩) ∧
    (rimg.ContentType ≠ [] → (ParseMediaType lib rimg.ContentType).2 ≠ none →
      proxyImage lib W base path w =
        ⟨some full, none, Reply.Error "invalid content type" 400⟩) := by
  rw [proxyImage_fetched lib W base path w full rimg hr hg, hs]
  have part1 : ∀ sub : GoString, rimg.ContentType ≠ [] →
      ParseMediaType lib rimg.ContentType = (str "image/" ++ sub, none) →
      ToLower lib sub ∉ formats →
      serve lib W rimg w =
        (some ⟨some (TransformError.unsupported (ToLower lib sub)), rimg.Body, w⟩,
         Reply.Error "error applying watermark" 500) := by
    intro sub hct hp hf
    have hd := (decode_eq_none_iff lib (ToLower lib sub) rimg.Body).2 hf
    rw [serve_image lib W rimg w sub hct hp, doWatermark_unsupported lib W sub rimg.Body w hd]
    simp
  refine ⟨?_, ?_, ?_, ?_⟩
  · intro sub hct hp hf
    simp only [part1 sub hct hp hf]
  · intro sub hct hp he
    rw [serve_image lib W rimg w sub hct hp, if_pos he]
  · intro sub hct hne htok hf
    have hl := ToLower_token lib sub htok
    have hct0 : rimg.ContentType ≠ [] := by
      rw [hct, imageSlash_bytes]; simp
    have hp : ParseMediaType lib rimg.ContentType =
        (str "image/" ++ sub.map (fun c => if 65 ≤ c ∧ c ≤ 90 then c + 32 else c), none) := by
      rw [hct]; exact ParseMediaType_image_token lib sub hne htok
    have hf2 : ToLower lib (sub.map (fun c => if 65 ≤ c ∧ c ≤ 90 then c + 32 else c))
        ∉ formats := by rw [hl.2]; exact hf
    simp only [part1 _ hct0 hp hf2, hl.2]
  · intro hct he
    simp only [serve_invalid_content_type lib W rimg w hct (Or.inl he)]

/-- C4 (witness): the amended statement for the upstream answering "image/bmp",
through the header itself and through its parsed media type. -/
theorem C4_unsupported_answered_500_witness :
    proxyImage (answering 200 "image/bmp").lib sampleWatermark (str "http://up")
      (str "/watermark/a.bmp") ⟨[]⟩ =
      ⟨some (str "http://up/a.bmp"),
       some ⟨some (TransformError.unsupported
          (ToLower (answering 200 "image/bmp").lib (str "bmp"))), sampleBody, ⟨[]⟩⟩,
       Reply.Error "error applying watermark" 500⟩ ∧
    proxyImage (answering 200 "image/bmp").lib sampleWatermark (str "http://up")
      (str "/watermark/a.bmp") ⟨[]⟩ =
      ⟨some (str "http://up/a.bmp"),
       some (doWatermark (answering 200 "image/bmp").lib sampleWatermark (str "bmp")
          sampleBody ⟨[]⟩),
       Reply.Error "error applying watermark" 500⟩ :=
  have h := C4_unsupported_answered_500 (answering 200 "image/bmp").lib sampleWatermark
    (str "http://up") (str "/watermark/a.bmp") ⟨[]⟩ (str "http://up/a.bmp")
    ⟨200, str "image/bmp", sampleBody⟩ rfl rfl (by decide)
  ⟨h.2.2.1 (str "bmp") (by decide) (by decide) (by decide) (by decide),
   h.2.1 (str "bmp") (by decide) (by decide) (by decide)⟩

/-- C5 (failing input): a PNG body that decodes, and an encoder that returns an
error because the sink refuses the write: `doWatermark` returns nil all the same and
the handler ends without reporting a failure. -/
theorem C5_encode_error_dropped :
    decode brokenPipe.lib (ToLower brokenPipe.lib (str "png")) sampleBody
      = some (⟨sampleBody.data, 4⟩, .ok sampleImage) ∧
    (encode brokenPipe.lib (str "png") ⟨[]⟩ (composite sampleWatermark sampleImage)).2
      = some "write: broken pipe" ∧
    (doWatermark brokenPipe.lib sampleWatermark (str "png") sampleBody ⟨[]⟩).err = none ∧
    (proxyImage brokenPipe.lib sampleWatermark (str "http://up")
      (str "/watermark/a.png") ⟨[]⟩).reply = Reply.done := by
  refine ⟨rfl, by decide, by decide, by decide⟩

/-! ## The upstream URL -/

theorem proxyImage_fetched_url (lib : Lib) (W : RGBA) (base path : GoString) (w : Writer)
    (full : GoString) (hr : resolve base path = .ok full) :
    (proxyImage lib W base path w).fetched = some full := by
  unfold proxyImage
  simp only [hr]
  cases lib.Get full with
  | error e => rfl
  | ok rimg =>
    simp only []
    cases checkStatus rimg.StatusCode with
    | none => rfl
    | some r => rfl

theorem resolve_eq (b p : GoString) (hb : b ≠ []) (hp : 11 ≤ p.length) :
    resolve b p = .ok (b ++ (if b.getLast? = some 47 then [] else str "/") ++ p.drop 11) := by
  unfold resolve
  cases hl : b.getLast? with
  | none => exact absurd (List.getLast?_eq_none_iff.1 hl) hb
  | some c =>
    have hlen : ¬ p.length < 11 := by omega
    by_cases hc : c = 47
    · simp [hc, hlen]
    · simp [hc, hlen]

/-- C8: for a request path that starts with the 11 bytes "/watermark/": with a
non-empty base URL the resolve step succeeds and the URL given to `http.Get` is the
base, then "/" exactly when the base does not end in "/", then the path without its
first 11 bytes; the step fails exactly when the base URL is empty, with an index
panic. -/
theorem C8_resolve (lib : Lib) (W : RGBA) (b p : GoString) (w : Writer)
    (hp : p.take 11 = str "/watermark/") :
    (b ≠ [] →
      resolve b p = .ok (b ++ (if b.getLast? = some 47 then [] else str "/") ++ p.drop 11) ∧
      (proxyImage lib W b p w).fetched =
        some (b ++ (if b.getLast? = some 47 then [] else str "/") ++ p.drop 11)) ∧
    ((∃ e, resolve b p = .error e) ↔ b = []) ∧
    (b = [] → (proxyImage lib W b p w).reply = Reply.panicked "index out of range") := by
  have hlen : 11 ≤ p.length := by
    have h1 : (p.take 11).length = 11 := by rw [hp]; decide
    rw [List.length_take] at h1
    omega
  refine ⟨?_, ?_, ?_⟩
  · intro hb
    exact ⟨resolve_eq b p hb hlen, proxyImage_fetched_url lib W b p w _ (resolve_eq b p hb hlen)⟩
  · constructor
    · rintro ⟨e, he⟩
      by_contra hb
      rw [resolve_eq b p hb hlen] at he
      cases he
    · intro hb
      subst hb
      exact ⟨"index out of range", rfl⟩
  · intro hb
    subst hb
    rfl

/-- C8 (witness): the base "http://up" and the path "/watermark/a.png" give the URL
"http://up/a.png"; the base "http://up/" gives the same URL. -/
theorem C8_resolve_witness :
    (proxyImage (answering 200 "image/png").lib sampleWatermark (str "http://up")
      (str "/watermark/a.png") ⟨[]⟩).fetched = some (str "http://up/a.png") ∧
    resolve (str "http://up/") (str "/watermark/a.png") = .ok (str "http://up/a.png") :=
  ⟨((C8_resolve (answering 200 "image/png").lib sampleWatermark (str "http://up")
      (str "/watermark/a.png") ⟨[]⟩ (by decide)).1 (by decide)).2,
   ((C8_resolve (answering 200 "image/png").lib sampleWatermark (str "http://up/")
      (str "/watermark/a.png") ⟨[]⟩ (by decide)).1 (by decide)).1⟩

/-! ## Geometry of the watermark -/

theorem wrap_of_isInt (x : Int) (h : isInt x) : wrap x = x := by
  unfold isInt at h
  unfold wrap
  omega

theorem wrap_add_wrap_sub (s b : Int) (hb : isInt b) : wrap (s + wrap (b - s)) = b := by
  unfold isInt at hb
  unfold wrap
  omega

theorem wrap_cancel (s b o : Int) (hs : isInt s) (ho : o = wrap (b - s)) :
    wrap (wrap (s + o) - wrap (0 + o)) = s := by
  unfold isInt at hs
  subst ho
  unfold wrap
  omega

theorem InitWatermark_Rect (lib : Lib) (s : Int) (W : RGBA) (hs : 0 ≤ s)
    (h : InitWatermark lib s = .ok W) : W.Rect = ⟨⟨0, 0⟩, ⟨s, s⟩⟩ := by
  unfold InitWatermark at h
  split at h
  · cases h
  · split at h
    · cases h
    · injection h with h
      subst h
      have : ¬ (0 > s) := by omega
      simp [NewRGBA, Rect, this]

/-- C7: for a watermark built by `InitWatermark` with a non-negative size s (bounds
(0,0)-(s,s)) and source bounds B: the offset is `B.Max.Sub(W.Max)`, the rectangle of
the watermark draw has Max equal to B.Max and is s wide and s high; where the
subtractions stay within Go's int (as they do for every B with non-negative
coordinates) the offset is B.Max - (s,s) and, when B is narrower or shorter than s,
the rectangle's Min lies left of or above B.Min: nothing is clamped. -/
theorem C7_watermark_rect (lib : Lib) (s : Int) (W : RGBA) (B : Rectangle)
    (hs0 : 0 ≤ s) (hs : isInt s) (hBx : isInt B.Max.X) (hBy : isInt B.Max.Y)
    (hW : InitWatermark lib s = .ok W) :
    W.Rect = ⟨⟨0, 0⟩, ⟨s, s⟩⟩ ∧
    watermarkOffset B W = B.Max.Sub W.Rect.Max ∧
    (watermarkRect B W).Max = B.Max ∧
    (watermarkRect B W).Dx = s ∧ (watermarkRect B W).Dy = s ∧
    (isInt (B.Max.X - s) →
      (watermarkOffset B W).X = B.Max.X - s ∧ (watermarkRect B W).Min.X = B.Max.X - s ∧
      (isInt (B.Max.X - B.Min.X) → B.Dx < s → (watermarkRect B W).Min.X < B.Min.X)) ∧
    (isInt (B.Max.Y - s) →
      (watermarkOffset B W).Y = B.Max.Y - s ∧ (watermarkRect B W).Min.Y = B.Max.Y - s ∧
      (isInt (B.Max.Y - B.Min.Y) → B.Dy < s → (watermarkRect B W).Min.Y < B.Min.Y)) := by
  have hR := InitWatermark_Rect lib s W hs0 hW
  refine ⟨hR, rfl, ?_, ?_, ?_, ?_, ?_⟩
  · simp only [watermarkRect, watermarkOffset, Rectangle.Add, Point.Sub, hR]
    rw [wrap_add_wrap_sub s B.Max.X hBx, wrap_add_wrap_sub s B.Max.Y hBy]
  · simp only [watermarkRect, watermarkOffset, Rectangle.Add, Point.Sub, Rectangle.Dx, hR]
    exact wrap_cancel s B.Max.X _ hs rfl
  · simp only [watermarkRect, watermarkOffset, Rectangle.Add, Point.Sub, Rectangle.Dy, hR]
    exact wrap_cancel s B.Max.Y _ hs rfl
  · intro h
    simp only [watermarkRect, watermarkOffset, Rectangle.Add, Point.Sub, Rectangle.Dx, hR]
    rw [wrap_of_isInt _ h, zero_add, wrap_of_isInt _ h]
    refine ⟨rfl, rfl, ?_⟩
    intro hd hlt
    rw [wrap_of_isInt _ hd] at hlt
    omega
  · intro h
    simp only [watermarkRect, watermarkOffset, Rectangle.Add, Point.Sub, Rectangle.Dy, hR]
    rw [wrap_of_isInt _ h, zero_add, wrap_of_isInt _ h]
    refine ⟨rfl, rfl, ?_⟩
    intro hd hlt
    rw [wrap_of_isInt _ hd] at hlt
    omega

/-- C7 (witness): a 5 by 5 watermark on the 3 by 2 sample image: the rectangle of
the watermark draw is (-2,-3)-(3,2). -/
theorem C7_watermark_rect_witness :
    (watermarkRect sampleImage.Bounds watermark5).Max = sampleImage.Bounds.Max ∧
    (watermarkRect sampleImage.Bounds watermark5).Dx = 5 ∧
    (watermarkRect sampleImage.Bounds watermark5).Min.X = 3 - 5 ∧
    (watermarkRect sampleImage.Bounds watermark5).Min.X < sampleImage.Bounds.Min.X ∧
    (watermarkRect sampleImage.Bounds watermark5).Min.Y < sampleImage.Bounds.Min.Y :=
  have h := C7_watermark_rect (answering 200 "image/png").lib 5 watermark5 sampleImage.Bounds
    (by decide) (by decide) (by decide) (by decide) rfl
  ⟨h.2.2.1, h.2.2.2.1, (h.2.2.2.2.2.1 (by decide)).2.1,
   (h.2.2.2.2.2.1 (by decide)).2.2 (by decide) (by decide),
   (h.2.2.2.2.2.2 (by decide)).2.2 (by decide) (by decide)⟩

/-! ## Drawing -/

theorem Intersect_of_degenerate (r s : Rectangle) (h : r.Min.X ≥ r.Max.X) :
    r.Intersect s = ZR := by
  unfold Rectangle.Intersect
  have he : (Rectangle.mk
      ⟨if r.Min.X < s.Min.X then s.Min.X else r.Min.X,
       if r.Min.Y < s.Min.Y then s.Min.Y else r.Min.Y⟩
      ⟨if r.Max.X > s.Max.X then s.Max.X else r.Max.X,
       if r.Max.Y > s.Max.Y then s.Max.Y else r.Max.Y⟩).Empty = true := by
    simp only [Rectangle.Empty, decide_eq_true_eq]
    left
    split <;> split <;> omega
  simp only [he, if_true]

theorem Draw_of_degenerate (dst : RGBA) (r : Rectangle) (src : Image) (sp : Point)
    (h : r.Min.X ≥ r.Max.X) : Draw dst r src sp = dst := by
  have h1 : r.Intersect dst.Rect = ZR := Intersect_of_degenerate r dst.Rect h
  have h2 : ∀ t, ZR.Intersect t = ZR := fun t =>
    Intersect_of_degenerate ZR t (by simp [ZR, ZP])
  have hc : (clip dst.Rect r src.Bounds sp).1 = ZR := by
    unfold clip
    simp only [h1, h2]
    split <;> rfl
  unfold Draw
  simp only [hc]
  rfl

theorem Draw_Rect (dst : RGBA) (r : Rectangle) (src : Image) (sp : Point) :
    (Draw dst r src sp).Rect = dst.Rect := by
  unfold Draw
  simp only []
  split <;> rfl

/-- C9: with the watermark built for size 0, for every format and stream whose
decoder returns an image: `doWatermark` returns nil, the canvas has the bounds of
the source image, the watermark draw changes nothing (the canvas is the one left by
the source draw alone), and that canvas is what the encoder receives. -/
theorem C9_zero_size (lib : Lib) (W : RGBA) (f : GoString) (body : Reader) (out : Writer)
    (b : Reader) (img : Image)
    (hW : InitWatermark lib 0 = .ok W)
    (hd : decode lib (ToLower lib f) body = some (b, .ok img)) :
    ToLower lib f ∈ formats ∧
    (doWatermark lib W f body out).err = none ∧
    (composite W img).Rect = img.Bounds ∧
    composite W img = sourceCanvas img ∧
    sourceCanvas img = Draw (NewRGBA img.Bounds) img.Bounds img ZP ∧
    doWatermark lib W f body out =
      ⟨none, b, (encode lib (ToLower lib f) out (sourceCanvas img)).1⟩ := by
  have hR := InitWatermark_Rect lib 0 W (le_refl 0) hW
  have hdeg : (watermarkRect img.Bounds W).Min.X ≥ (watermarkRect img.Bounds W).Max.X := by
    simp only [watermarkRect, Rectangle.Add, hR]
    exact le_refl _
  have hc : composite W img = sourceCanvas img := by
    unfold composite
    exact Draw_of_degenerate _ _ _ _ hdeg
  have hf : ToLower lib f ∈ formats := by
    by_contra hn
    rw [(decode_eq_none_iff lib (ToLower lib f) body).2 hn] at hd
    cases hd
  refine ⟨hf, ?_, ?_, hc, rfl, ?_⟩
  · rw [doWatermark_decoded lib W f body out b img hd]
  · rw [hc]
    unfold sourceCanvas
    rw [Draw_Rect]
    rfl
  · rw [doWatermark_decoded lib W f body out b img hd, hc]

/-- C9 (witness): the sample PNG request with the size 0 watermark. -/
theorem C9_zero_size_witness :
    (doWatermark (answering 200 "image/png").lib watermark0 (str "PNG") sampleBody ⟨[]⟩).err
      = none ∧
    (composite watermark0 sampleImage).Rect = sampleImage.Bounds ∧
    composite watermark0 sampleImage = sourceCanvas sampleImage :=
  have h := C9_zero_size (answering 200 "image/png").lib watermark0 (str "PNG") sampleBody ⟨[]⟩
    ⟨sampleBody.data, 4⟩ sampleImage rfl rfl
  ⟨h.2.1, h.2.2.1, h.2.2.2.1⟩

/-- For an image whose bounds start at the origin the source draw does copy it:
every pixel of the canvas inside the bounds is the source pixel at the same point
composed over a transparent pixel. -/
theorem sourceCanvas_at_origin (img : Image) (hmin : img.Bounds.Min = ZP)
    (hx : isInt img.Bounds.Max.X) (hy : isInt img.Bounds.Max.Y) (x y : Int)
    (hp : (Point.mk x y).In img.Bounds = true) :
    (sourceCanvas img).RGBAAt x y = over (img.At x y) ⟨0, 0, 0, 0⟩ := by
  obtain ⟨B, At⟩ := img
  obtain ⟨bmin, bmax⟩ := B
  obtain ⟨mx, my⟩ := bmax
  simp only at hmin hx hy hp
  subst hmin
  simp only [Point.In, ZP, decide_eq_true_eq] at hp
  obtain ⟨hx0, hx1, hy0, hy1⟩ := hp
  have hwx : wrap mx = mx := wrap_of_isInt _ hx
  have hwy : wrap my = my := wrap_of_isInt _ hy
  have hw0 : wrap 0 = 0 := by decide
  have hne : (Rectangle.mk ⟨0, 0⟩ ⟨mx, my⟩).Empty = false := by
    simp only [Rectangle.Empty, decide_eq_false_iff_not]
    omega
  have hI : (Rectangle.mk ⟨0, 0⟩ ⟨mx, my⟩).Intersect ⟨⟨0, 0⟩, ⟨mx, my⟩⟩ = ⟨⟨0, 0⟩, ⟨mx, my⟩⟩ := by
    unfold Rectangle.Intersect
    simp only [lt_self_iff_false, gt_iff_lt, if_false, hne]
    rfl
  have hc : clip ⟨⟨0, 0⟩, ⟨mx, my⟩⟩ ⟨⟨0, 0⟩, ⟨mx, my⟩⟩ ⟨⟨0, 0⟩, ⟨mx, my⟩⟩ ⟨0, 0⟩
      = (⟨⟨0, 0⟩, ⟨mx, my⟩⟩, ⟨0, 0⟩) := by
    simp only [clip, Rectangle.Add, Point.Sub, sub_self, hw0, hwx, hwy, add_zero, hI,
      sub_zero, and_self, if_true]
  have hxx : wrap (wrap (0 + x) - 0) = x := by
    unfold isInt at hx
    unfold wrap
    omega
  have hyy : wrap (wrap (0 + y) - 0) = y := by
    unfold isInt at hy
    unfold wrap
    omega
  have hin : (Point.mk x y).In ⟨⟨0, 0⟩, ⟨mx, my⟩⟩ = true := by
    simp only [Point.In, decide_eq_true_eq]
    exact ⟨hx0, hx1, hy0, hy1⟩
  simp only [sourceCanvas, Draw, NewRGBA, hc, hne, RGBA.RGBAAt, ZP, Bool.false_eq_true,
    if_false, hin, if_true, hxx, hyy]

/-- C10 (failing input): for a decoded image whose bounds are (1,0)-(2,1), with an
opaque red pixel at (1,0), the canvas has the bounds of the image but its pixel at
(1,0) is still transparent after the source draw, while the source pixel composed
over a transparent pixel is opaque red: the draw reads the source from `image.ZP`
and the clipped rectangle is empty. -/
theorem C10_offset_source_not_copied :
    (sourceCanvas offsetImage).Rect = offsetImage.Bounds ∧
    (Point.mk 1 0).In offsetImage.Bounds = true ∧
    (clip offsetImage.Bounds offsetImage.Bounds offsetImage.Bounds ZP).1.Empty = true ∧
    (sourceCanvas offsetImage).RGBAAt 1 0 = ⟨0, 0, 0, 0⟩ ∧
    over (offsetImage.At 1 0) ⟨0, 0, 0, 0⟩ = ⟨255, 0, 0, 255⟩ := by
  refine ⟨rfl, by decide, by decide, by decide, by decide⟩

end Imgwater
